import Mathlib

/-!
# SuggestPilot — verification of the context-to-suggestion pipeline

A shallow embedding of the core pipeline of the SuggestPilot Chrome
extension, translated from its JavaScript sources:

* `src/services/form-detector.js`      — field classifier (`_classifyField`)
* `src/content/content-script.js`      — inline classifier, `buildFieldMeta`,
  OS/browser detection, stale-result handling at completion
* `src/services/context-collector.js`  — context snapshot, `isSensitiveInput`
* `src/services/groq-service.js`       — prompts, `callWithRetry`,
  `parseResponse`, `validateSuggestions`, form-fill bypass
* background service worker            — `generateSuggestions` pipeline entry
* `src/utils/rate-limiter.js`          — sliding-window `RateLimiter`

JavaScript strings are modelled as Lean `String`s; absent/`undefined`
string attributes are modelled as `""` (JS falsy), matching how the code
only ever distinguishes strings by truthiness.  Timestamps (`Date.now()`)
are `Nat` milliseconds.  Confidence values (JS floats `0.0 … 1.0`) are
scaled to `Nat` hundredths (JS `1.0` ↦ `100`, `0.9` ↦ `90`).
-/

/-! ## JS string primitives

`String.toLower`/`String.trim` from the library do not reduce in the
kernel, so the JS string operations are re-implemented over `List Char`.
-/

/-- JS `String.prototype.toLowerCase` (ASCII, as used by the sources). -/
def jsLower (s : String) : String := String.mk (s.data.map Char.toLower)

/-- JS `a || b` on strings: `a` unless it is falsy (empty). -/
def jsOrS (a b : String) : String := if a = "" then b else a

/-- JS `String.prototype.trim`. -/
def jsTrim (s : String) : String :=
  String.mk (((s.data.dropWhile Char.isWhitespace).reverse.dropWhile Char.isWhitespace).reverse)

/-- JS `String.prototype.slice(0, n)` for non-negative `n`. -/
def jsTake (s : String) (n : Nat) : String := String.mk (s.data.take n)

/-- Whether `pat` is a prefix of `l` (decidable, structural). -/
def isPrefixL : List Char → List Char → Bool
  | [], _ => true
  | _ :: _, [] => false
  | a :: as, b :: bs => a = b && isPrefixL as bs

/-- Whether `pat` occurs as a contiguous substring of `hay`. -/
def containsL (hay pat : List Char) : Bool :=
  isPrefixL pat hay ||
    match hay with
    | [] => false
    | _ :: t => containsL t pat

/-- JS `String.prototype.includes` / regex literal-substring test. -/
def strContains (hay pat : String) : Bool := containsL hay.data pat.data

/-! ## Regex character classes and matchers

The classifier regexes in the sources use only literals, the classes
`[_\s-]` / `[_\s]` (optionally or mandatorily once), the word-boundary
idiom `(^|\W) … (\W|$)`, and `.` (any char but newline).  Each such
pattern is embedded as an executable matcher over `List Char`.
-/

/-- JS `\w` word character: `[A-Za-z0-9_]`. -/
def wordChar (c : Char) : Bool := c.isAlphanum || c = '_'

/-- The character class `[_\s]`. -/
def sepUS (c : Char) : Bool := c = '_' || c.isWhitespace

/-- The character class `[_\s-]`. -/
def sepUSH (c : Char) : Bool := c = '_' || c = '-' || c.isWhitespace

/-- Matches `a [sep]? b` at the head of `l` (regex `a[class]?b`). -/
def optSepAt (sep : Char → Bool) (a b l : List Char) : Bool :=
  isPrefixL a l &&
    (let r := l.drop a.length
     isPrefixL b r ||
       match r with
       | [] => false
       | c :: r2 => sep c && isPrefixL b r2)

/-- Matches `a [sep] b` at the head of `l` (regex `a[class]b`, class mandatory). -/
def reqSepAt (sep : Char → Bool) (a b l : List Char) : Bool :=
  isPrefixL a l &&
    (match l.drop a.length with
     | [] => false
     | c :: r2 => sep c && isPrefixL b r2)

/-- Scans `l` for a position where `m` matches. -/
def scanL (m : List Char → Bool) : List Char → Bool
  | [] => m []
  | c :: t => m (c :: t) || scanL m t

/-- Regex test `pat` where `pat` is `a[class]?b`. -/
def hasOptSep (sep : Char → Bool) (a b : String) (hay : String) : Bool :=
  scanL (optSepAt sep a.data b.data) hay.data

/-- Regex test `pat` where `pat` is `a[class]b`. -/
def hasReqSep (sep : Char → Bool) (a b : String) (hay : String) : Bool :=
  scanL (reqSepAt sep a.data b.data) hay.data

/-- The `(\W|$)` trailing boundary: end of input or a non-word char. -/
def tailBoundaryOk : List Char → Bool
  | [] => true
  | c :: _ => !(wordChar c)

/-- A literal alternative inside `(^|\W)(…)(\W|$)`. -/
def litB (pat l : List Char) : Bool :=
  isPrefixL pat l && tailBoundaryOk (l.drop pat.length)

/-- An `a[class]?b` alternative inside `(^|\W)(…)(\W|$)`. -/
def optSepB (sep : Char → Bool) (a b l : List Char) : Bool :=
  isPrefixL a l &&
    (let r := l.drop a.length
     (isPrefixL b r && tailBoundaryOk (r.drop b.length)) ||
       match r with
       | [] => false
       | c :: r2 => sep c && isPrefixL b r2 && tailBoundaryOk (r2.drop b.length))

/-- Positions after the `(^|\W)` leading boundary, except the very start. -/
def scanBoundedAux (m : List Char → Bool) : List Char → Bool
  | [] => false
  | c :: t => (!(wordChar c) && m t) || scanBoundedAux m t

/-- Regex test for `(^|\W)(…)(\W|$)` patterns: try the start, then every
position following a non-word character. -/
def scanBounded (m : List Char → Bool) (l : List Char) : Bool :=
  m l || scanBoundedAux m l

/-- Regex test `/linked.in/` (`.` is any char except newline). -/
def linkedDotIn (hay : String) : Bool :=
  scanL
    (fun l =>
      isPrefixL "linked".data l &&
        match l.drop 6 with
        | [] => false
        | c :: r => c ≠ Char.ofNat 10 && isPrefixL "in".data r)
    hay.data

/-- Regex test `/of[_\s]?exp/` at the head of `l` (helper for the
experience-years pattern). -/
def ofExpAt (l : List Char) : Bool :=
  isPrefixL "of".data l &&
    (let r := l.drop 2
     isPrefixL "exp".data r ||
       match r with
       | [] => false
       | c :: r2 => sepUS c && isPrefixL "exp".data r2)

/-- Regex test `/years[_\s]?of[_\s]?exp/` at the head of `l`. -/
def yearsOfExpAt (l : List Char) : Bool :=
  isPrefixL "years".data l &&
    (let r := l.drop 5
     ofExpAt r ||
       match r with
       | [] => false
       | c :: r2 => sepUS c && ofExpAt r2)

/-! ## Field descriptor and category (data model) -/

/-- Attributes of the focused input, as read by both classifiers.
`label` stands for the accessible label (`meta.label` in the form
detector, `aria-label` in the content script); absent attributes are
`""`. -/
structure FieldDescriptor where
  name : String := ""
  id : String := ""
  placeholder : String := ""
  autocomplete : String := ""
  label : String := ""
  type : String := ""
deriving DecidableEq, Repr

/-- Semantic field category (closed enum of `form-detector.js`). -/
inductive FieldCategory
  | sensitive
  | first_name | last_name | full_name | email
  | job_title | company | linkedin_url | github_url | website
  | experience_years | skills
  | os | browser | version | issue_subject | issue_description
  | city | country | zip
  | search
deriving DecidableEq, Repr

/-- Display name of a category (the string value used in JS). -/
def FieldCategory.jsName : FieldCategory → String
  | .sensitive => "sensitive"
  | .first_name => "first_name"
  | .last_name => "last_name"
  | .full_name => "full_name"
  | .email => "email"
  | .job_title => "job_title"
  | .company => "company"
  | .linkedin_url => "linkedin_url"
  | .github_url => "github_url"
  | .website => "website"
  | .experience_years => "experience_years"
  | .skills => "skills"
  | .os => "os"
  | .browser => "browser"
  | .version => "version"
  | .issue_subject => "issue_subject"
  | .issue_description => "issue_description"
  | .city => "city"
  | .country => "country"
  | .zip => "zip"
  | .search => "search"

/-! ## Field classifier of `form-detector.js` (`_classifyField`) -/

/-- The concatenated, lower-cased descriptor text
(`[name, id, placeholder, autocomplete, label, type].join(' ').toLowerCase()`). -/
def fdCombined (m : FieldDescriptor) : String :=
  jsLower (m.name ++ " " ++ m.id ++ " " ++ m.placeholder ++ " " ++
    m.autocomplete ++ " " ++ m.label ++ " " ++ m.type)

/-- The sensitive keyword list of `form-detector.js`. -/
def fdSensitiveKeywords : List String :=
  ["password", "passwd", "pwd", "credit", "card", "cvv", "cvc",
   "ssn", "social security", "bank", "pin", "otp", "auth", "token",
   "verification code", "secret"]

/-- `FormDetector._classifyField`: ordered rule evaluation, sensitivity
first (keywords, then input type `password`/`tel`), then the category
regexes in source order; `none` when unrecognised. -/
def fdClassifyField (m : FieldDescriptor) : Option FieldCategory :=
  let combined := fdCombined m
  let c := combined.data
  if fdSensitiveKeywords.any (fun k => strContains combined k) then some .sensitive
  else if m.type = "password" || m.type = "tel" then some .sensitive
  else if scanBounded
      (fun l => optSepB sepUSH "first".data "name".data l || litB "fname".data l ||
        optSepB sepUSH "given".data "name".data l) c then some .first_name
  else if scanBounded
      (fun l => optSepB sepUSH "last".data "name".data l || litB "lname".data l ||
        optSepB sepUSH "family".data "name".data l || litB "surname".data l) c then
    some .last_name
  else if scanBounded
      (fun l => optSepB sepUSH "full".data "name".data l ||
        optSepB sepUSH "your".data "name".data l || litB "name".data l) c then
    some .full_name
  else if ["email", "e-mail", "mail"].any (fun k => strContains combined k) then some .email
  else if hasOptSep sepUSH "job" "title" combined ||
      ["position", "role", "designation", "occupation"].any
        (fun k => strContains combined k) then some .job_title
  else if ["company", "employer", "organisation", "organization", "workplace", "firm"].any
      (fun k => strContains combined k) then some .company
  else if strContains combined "linkedin" || linkedDotIn combined then some .linkedin_url
  else if strContains combined "github" || hasReqSep sepUSH "git" "hub" combined then
    some .github_url
  else if ["website", "portfolio"].any (fun k => strContains combined k) ||
      hasOptSep sepUSH "personal" "site" combined ||
      ["homepage", "url", "link"].any (fun k => strContains combined k) then some .website
  else if scanL yearsOfExpAt c || hasOptSep sepUS "experience" "years" combined ||
      strContains combined "yoe" then some .experience_years
  else if ["skill", "expertise", "technology"].any (fun k => strContains combined k) ||
      hasOptSep sepUS "tech" "stack" combined ||
      ["languages", "tools"].any (fun k => strContains combined k) then some .skills
  else if strContains combined "os" || hasOptSep sepUS "operating" "system" combined ||
      strContains combined "platform" then some .os
  else if strContains combined "browser" || hasOptSep sepUS "user" "agent" combined then
    some .browser
  else if strContains combined "version" || hasOptSep sepUS "app" "version" combined ||
      hasOptSep sepUS "software" "version" combined then some .version
  else if strContains combined "subject" || hasOptSep sepUS "issue" "title" combined ||
      hasOptSep sepUS "ticket" "title" combined || strContains combined "summary" then
    some .issue_subject
  else if ["description", "details", "body", "message", "explain", "steps"].any
      (fun k => strContains combined k) then some .issue_description
  else if ["city", "town", "municipality"].any (fun k => strContains combined k) then
    some .city
  else if strContains combined "country" then some .country
  else if ["zip", "postal", "postcode"].any (fun k => strContains combined k) then some .zip
  else if m.type = "search" ||
      ["search", "query", "q"].any (fun k => strContains combined k) then some .search
  else none

/-! ## Inline field classifier of `content-script.js` (`classifyField`) -/

/-- The normalisation applied in `classifyField`:
`.toLowerCase().replace(/[-\s]/g, '_')` (also applied to each keyword). -/
def csNormalize (s : String) : String :=
  String.mk ((jsLower s).data.map fun c => if c = '-' || c.isWhitespace then '_' else c)

/-- `FORM_FIELD_PATTERNS` of the content script, in insertion order
(object iteration order in JS). -/
def csPatterns : List (FieldCategory × List String) :=
  [(.sensitive, ["password", "passwd", "pwd", "credit", "card", "cvv", "cvc", "ssn",
      "bank", "pin", "otp", "auth", "token", "secret"]),
   (.job_title, ["job_title", "jobtitle", "position", "role", "designation",
      "occupation", "title"]),
   (.company, ["company", "employer", "organisation", "organization", "workplace", "firm"]),
   (.os, ["operating_system", "operatingsystem", "platform", " os "]),
   (.browser, ["browser", "useragent", "user_agent"]),
   (.version, ["version", "appversion", "softwareversion"]),
   (.skills, ["skill", "expertise", "technology", "techstack", "languages", "tools"]),
   (.linkedin_url, ["linkedin"]),
   (.github_url, ["github"]),
   (.issue_subject, ["subject", "issuetitle", "tickettitle", "summary"]),
   (.issue_description, ["description", "details", "body", "message", "explain", "steps"])]

/-- The combined text used by the content-script classifier. -/
def csCombined (m : FieldDescriptor) : String :=
  csNormalize (m.name ++ " " ++ m.id ++ " " ++ m.placeholder ++ " " ++
    m.autocomplete ++ " " ++ m.label ++ " " ++ m.type)

/-- `classifyField` of the content script: first pattern whose (normalised)
keywords hit wins; a sensitive hit yields `none` (no field type), and so
does no hit at all. -/
def csClassifyField (m : FieldDescriptor) : Option FieldCategory :=
  let combined := csCombined m
  match csPatterns.find? (fun p => p.2.any fun k => strContains combined (csNormalize k)) with
  | some p => if p.1 = .sensitive then none else some p.1
  | none => none

/-- Sensitive-keyword hit of the content-script classifier. -/
def csSensitiveHit (m : FieldDescriptor) : Bool :=
  ["password", "passwd", "pwd", "credit", "card", "cvv", "cvc", "ssn",
   "bank", "pin", "otp", "auth", "token", "secret"].any
    fun k => strContains (csCombined m) (csNormalize k)

/-- Sensitive hit of the form-detector classifier (keywords or type tag). -/
def fdSensitiveHit (m : FieldDescriptor) : Bool :=
  fdSensitiveKeywords.any (fun k => strContains (fdCombined m) k) ||
    m.type = "password" || m.type = "tel"

/-! ## Device detection and `buildFieldMeta` (`content-script.js`) -/

/-- Digit character or the given extra characters (regex classes
`[\d_]`, `[\d.]`). -/
def digitOr (extra : Char) (c : Char) : Bool := c.isDigit || c = extra

/-- Regex capture `lit([cls]+)`: the first position at which the literal
is followed by at least one class character; returns that maximal run.
Used for `/Mac OS X ([\d_]+)/`, `/Android ([\d.]+)/`, `/Chrome\/([\d.]+)/`, … -/
def matchCapture (lit : List Char) (pred : Char → Bool) : List Char → Option String
  | [] => none
  | c :: t =>
    if isPrefixL lit (c :: t) then
      let cap := ((c :: t).drop lit.length).takeWhile pred
      if cap.isEmpty then matchCapture lit pred t else some (String.mk cap)
    else matchCapture lit pred t

/-- JS `v[1].split('.')[0]`: the capture up to the first dot. -/
def majorOf (v : String) : String := String.mk (v.data.takeWhile (· ≠ '.'))

/-- `detectOS` of the content script: ordered regex tests over
`navigator.userAgent`. -/
def detectOS (ua : String) : Option String :=
  if strContains ua "Windows NT 11" then some "Windows 11"
  else if strContains ua "Windows NT 10" then some "Windows 10"
  else if strContains ua "Mac OS X" then
    match matchCapture "Mac OS X ".data (digitOr '_') ua.data with
    | some v => some ("macOS " ++ String.mk (v.data.map fun c => if c = '_' then '.' else c))
    | none => some "macOS"
  else if strContains ua "Linux" then some "Linux"
  else if strContains ua "Android" then
    match matchCapture "Android ".data (digitOr '.') ua.data with
    | some v => some ("Android " ++ v)
    | none => some "Android"
  else if strContains ua "iPhone" || strContains ua "iPad" then some "iOS"
  else none

/-- `detectBrowser` of the content script (`Edge …` / `Opera …` / …);
a missing version capture leaves just the trimmed browser name. -/
def detectBrowser (ua : String) : Option String :=
  if strContains ua "Edg/" then
    some (jsTrim ("Edge " ++ ((matchCapture "Edg/".data (digitOr '.') ua.data).map majorOf).getD ""))
  else if strContains ua "OPR/" then
    some (jsTrim ("Opera " ++ ((matchCapture "OPR/".data (digitOr '.') ua.data).map majorOf).getD ""))
  else if strContains ua "Chrome/" then
    some (jsTrim ("Chrome " ++ ((matchCapture "Chrome/".data (digitOr '.') ua.data).map majorOf).getD ""))
  else if strContains ua "Firefox/" then
    some (jsTrim ("Firefox " ++ ((matchCapture "Firefox/".data (digitOr '.') ua.data).map majorOf).getD ""))
  else if strContains ua "Safari/" then some "Safari"
  else none

/-- A proposed fill value with provenance.  `confidence` is in
hundredths (JS `1.0` ↦ `100`, `0.9` ↦ `90`). -/
structure Candidate where
  value : String
  source : String
  confidence : Nat
deriving DecidableEq, Repr

/-- Form-field metadata sent from the content script to the worker. -/
structure FieldMeta where
  fieldType : FieldCategory
  fieldLabel : String
  isFormFill : Bool
  candidates : List Candidate
deriving DecidableEq, Repr

/-- `buildFieldMeta` of the content script.  `ua` is
`navigator.userAgent`; `nearbyLabel` is the result of the DOM walk
`getNearbyLabel` (supplied by the host layer, `""` when absent). -/
def buildFieldMeta (e : FieldDescriptor) (ua : String) (nearbyLabel : String) :
    Option FieldMeta :=
  match csClassifyField e with
  | none => none
  | some ft =>
    let base : FieldMeta :=
      { fieldType := ft
        fieldLabel := jsOrS nearbyLabel (jsOrS e.placeholder (jsOrS e.name
          (jsOrS e.id ft.jsName)))
        isFormFill := false
        candidates := [] }
    if ft = .os then
      match detectOS ua with
      | some os =>
        some { base with candidates := [⟨os, "Your device", 100⟩], isFormFill := true }
      | none => some base
    else if ft = .browser then
      match detectBrowser ua with
      | some b =>
        some { base with candidates := [⟨b, "Your device", 100⟩], isFormFill := true }
      | none => some base
    else if ft = .issue_description then
      match detectOS ua, detectBrowser ua with
      | some os, some b =>
        let v := os ++ " / " ++ b
        some { base with candidates := [⟨v, "Your device", 90⟩], isFormFill := true }
      | _, _ => some base
    else some base

/-! ## Sliding-window rate limiter (`rate-limiter.js`)

State is the `requests` timestamp array; `Date.now()` is passed
explicitly.  Note that no other module of the repository imports or
instantiates `RateLimiter`: the definitions below embed the module
itself, and the pipeline embedding further down takes no limiter state.
-/

/-- `windowMs` of `RateLimiter` (one minute). -/
def windowMs : Nat := 60000

/-- `maxRequests` used by `checkLimit` / `getRemainingRequests`. -/
def maxRequests : Nat := 10

/-- `RateLimiter.checkLimit`: expire entries older than the window,
reject if the cap is reached, otherwise record the new timestamp.
Returns the admission decision and the updated `requests` state. -/
def checkLimit (now : Nat) (requests : List Nat) : Bool × List Nat :=
  let reqs := requests.filter fun t => now - t < windowMs
  if maxRequests ≤ reqs.length then (false, reqs)
  else (true, reqs ++ [now])

/-- `RateLimiter.getRemainingRequests`. -/
def getRemainingRequests (now : Nat) (requests : List Nat) : Nat :=
  maxRequests - (requests.filter fun t => now - t < windowMs).length

/-- `RateLimiter.getTimeUntilReset` (`Math.max(0, oldest + windowMs - now)`,
expressed with truncating `Nat` subtraction). -/
def getTimeUntilReset (now : Nat) (requests : List Nat) : Nat :=
  match requests with
  | [] => 0
  | t :: ts => (ts.foldl Nat.min t + windowMs) - now

/-- Runs `checkLimit` over a sequence of check times, returning the
decision trace and the final state. -/
def runChecks (times : List Nat) (requests : List Nat) : List Bool × List Nat :=
  match times with
  | [] => ([], requests)
  | t :: ts =>
    let r := checkLimit t requests
    let rest := runChecks ts r.2
    (r.1 :: rest.1, rest.2)

/-- Modelled from the spec: "on each check … admit iff the number of
admitted timestamps within the window is below a fixed cap".  The
admitted history `adm` is never expired, so window counts can be asked
retrospectively. -/
def specAdmitModel : List Nat → List Nat → List Bool
  | [], _ => []
  | t :: ts, adm =>
    if (adm.filter fun u => t - u < windowMs).length < maxRequests then
      true :: specAdmitModel ts (adm ++ [t])
    else
      false :: specAdmitModel ts adm

/-- The admitted timestamps accumulated by `specAdmitModel`. -/
def specAdmitAll : List Nat → List Nat → List Nat
  | [], adm => adm
  | t :: ts, adm =>
    if (adm.filter fun u => t - u < windowMs).length < maxRequests then
      specAdmitAll ts (adm ++ [t])
    else
      specAdmitAll ts adm

/-- Nondecreasing check-time sequence (executable). -/
def timesSorted : List Nat → Bool
  | [] => true
  | [_] => true
  | a :: b :: t => a ≤ b && timesSorted (b :: t)

/-! ## Context aggregator (`context-collector.js`) -/

/-- A browser tab as seen by `chrome.tabs.query`. -/
structure BrowserTab where
  id : Nat
  title : String := ""
  url : String := ""
deriving DecidableEq, Repr

/-- A `{title, url}` pair as included in the context snapshot. -/
structure TabCtx where
  title : String
  url : String
deriving DecidableEq, Repr

/-- An entry of `chrome.history.search` results. -/
structure HistoryItem where
  title : String := ""
  url : String := ""
  visitCount : Nat := 0
  lastVisitTime : Nat := 0
deriving DecidableEq, Repr

/-- A history entry as shaped by `getRecentHistory`. -/
structure HistCtx where
  title : String
  url : String
  visitCount : Nat
  lastVisitTime : Nat
deriving DecidableEq, Repr

/-- A history entry as shaped by `getTopVisitedTitles`. -/
structure TopCtx where
  title : String
  url : String
  visitCount : Nat
deriving DecidableEq, Repr

/-- The sensitive-domain blocklist of `getActiveTabsContext`. -/
def sensitiveDomains : List String :=
  ["bank", "login", "signin", "auth", "payment",
   "checkout", "account", "admin", "dashboard"]

/-- Whether a tab URL hits the sensitive-domain blocklist. -/
def isSensitiveDomain (url : String) : Bool :=
  sensitiveDomains.any fun d => strContains (jsLower url) d

/-- `ContextCollector.getActiveTabsContext`: all window tabs minus the
active one, sensitive domains filtered, capped at 5, shaped to
`{title, url}`.  `currentTab` is `chrome.tabs.query({active: true})`. -/
def getActiveTabsContext (tabs : List BrowserTab) (currentTab : Option BrowserTab) :
    List TabCtx :=
  ((tabs.filter fun tab =>
      !(currentTab.elim false fun ct => tab.id = ct.id) && !(isSensitiveDomain tab.url)).take 5
    ).map fun tab => ⟨tab.title, tab.url⟩

/-- Modelled from the Chrome platform contract of `chrome.history.search`
(a host API, not repository code): returns at most `maxResults` entries
whose last visit is not before `startTime`. -/
def chromeHistorySearch (store : List HistoryItem) (startTime : Nat) (maxRes : Nat) :
    List HistoryItem :=
  (store.filter fun h => startTime ≤ h.lastVisitTime).take maxRes

/-- The title/URL filter shared by the two history snapshots:
no `chrome://` or `chrome-extension://` URLs, a non-empty title that is
not `new tab` and longer than 3 characters. -/
def historyTitleOk (item : HistoryItem) : Bool :=
  let url := jsLower item.url
  let title := jsLower item.title
  !(strContains url "chrome://") && !(strContains url "chrome-extension://") &&
    title ≠ "" && title ≠ "new tab" && 3 < title.length

/-- `ContextCollector.getRecentHistory`: last two hours, 15 results
requested from the host API, junk titles dropped. -/
def getRecentHistory (store : List HistoryItem) (now : Nat) : List HistCtx :=
  let twoHoursAgo := now - 2 * 60 * 60 * 1000
  ((chromeHistorySearch store twoHoursAgo 15).filter historyTitleOk).map
    fun item => ⟨item.title, item.url, item.visitCount, item.lastVisitTime⟩

/-- Stable insertion into a list sorted by `visitCount` descending
(models the JS comparator `(a, b) => b.visitCount - a.visitCount`). -/
def insertByVisits (x : HistoryItem) : List HistoryItem → List HistoryItem
  | [] => [x]
  | y :: t => if y.visitCount < x.visitCount then x :: y :: t else y :: insertByVisits x t

/-- Sort by `visitCount` descending (stable). -/
def sortByVisits : List HistoryItem → List HistoryItem
  | [] => []
  | x :: t => insertByVisits x (sortByVisits t)

/-- `ContextCollector.getTopVisitedTitles`: last week, 50 results
requested, junk titles and single visits dropped, sorted by visit count
descending, capped at 5. -/
def getTopVisitedTitles (store : List HistoryItem) (now : Nat) : List TopCtx :=
  let oneWeekAgo := now - 7 * 24 * 60 * 60 * 1000
  ((sortByVisits
      ((chromeHistorySearch store oneWeekAgo 50).filter fun item =>
        historyTitleOk item && 1 < item.visitCount)).take 5).map
    fun item => ⟨item.title, item.url, item.visitCount⟩

/-! ## Sensitive-input gate (`ContextCollector.isSensitiveInput`) -/

/-- `isSensitiveInput(text, fieldName)`: case-insensitive patterns over
`text + ' ' + fieldName`.  The `[_\s-]?` classes are embedded through
`hasOptSep`. -/
def isSensitiveInput (text fieldName : String) : Bool :=
  let combined := jsLower (text ++ " " ++ fieldName)
  strContains combined "password" || strContains combined "passwd" ||
    strContains combined "pwd" ||
    hasOptSep sepUSH "credit" "card" combined ||
    hasOptSep sepUSH "cc" "number" combined ||
    strContains combined "ssn" ||
    hasOptSep sepUSH "social" "security" combined ||
    hasOptSep sepUSH "bank" "account" combined ||
    hasOptSep sepUSH "account" "number" combined ||
    strContains combined "cvv" || strContains combined "cvc" ||
    strContains combined "pin" ||
    hasOptSep sepUSH "api" "key" combined ||
    strContains combined "token"

/-! ## JSON values and `JSON.parse` (host runtime, modelled)

`parseResponse` relies on the JS `JSON.parse`.  It is embedded as an
executable recursive-descent parser over `List Char` with explicit fuel.
Numeric values are retained only up to their integer part (fraction and
exponent are validated but not evaluated) — the pipeline never reads a
numeric value, only string/array/object structure.
-/

/-- A parsed JSON value. -/
inductive Json
  | null
  | tru
  | fls
  | num (n : Int)
  | str (s : String)
  | arr (elems : List Json)
  | obj (fields : List (String × Json))

/-- JSON whitespace (space, tab, line feed, carriage return). -/
def skipWsL (l : List Char) : List Char :=
  l.dropWhile fun c => c = ' ' || c = '\t' || c = '\n' || c = '\r'

/-- Value of a hex digit. -/
def hexVal (c : Char) : Option Nat :=
  if c.isDigit then some (c.toNat - 48)
  else if 'a' ≤ c && c ≤ 'f' then some (c.toNat - 87)
  else if 'A' ≤ c && c ≤ 'F' then some (c.toNat - 55)
  else none

/-- Single-character JSON string escapes. -/
def escChar (c : Char) : Option Char :=
  if c = '"' then some '"'
  else if c = '\\' then some '\\'
  else if c = '/' then some '/'
  else if c = 'b' then some (Char.ofNat 8)
  else if c = 'f' then some (Char.ofNat 12)
  else if c = 'n' then some (Char.ofNat 10)
  else if c = 'r' then some (Char.ofNat 13)
  else if c = 't' then some (Char.ofNat 9)
  else none

/-- Parses the body of a JSON string after the opening quote; returns
the decoded characters and the input following the closing quote. -/
def parseJStr : List Char → Option (List Char × List Char)
  | [] => none
  | c :: t =>
    if c = '"' then some ([], t)
    else if c = '\\' then
      match t with
      | [] => none
      | e :: t2 =>
        if e = 'u' then
          match t2 with
          | h1 :: h2 :: h3 :: h4 :: t3 =>
            match hexVal h1, hexVal h2, hexVal h3, hexVal h4 with
            | some a, some b, some c2, some d =>
              match parseJStr t3 with
              | some (r, rest) =>
                some (Char.ofNat (((a * 16 + b) * 16 + c2) * 16 + d) :: r, rest)
              | none => none
            | _, _, _, _ => none
          | _ => none
        else
          match escChar e with
          | some ec =>
            match parseJStr t2 with
            | some (r, rest) => some (ec :: r, rest)
            | none => none
          | none => none
    else if c.toNat < 32 then none
    else
      match parseJStr t with
      | some (r, rest) => some (c :: r, rest)
      | none => none

/-- Digits of a decimal run interpreted as a `Nat`. -/
def digitsToNat (l : List Char) : Nat :=
  l.foldl (fun acc c => acc * 10 + (c.toNat - 48)) 0

/-- Optional JSON fraction part: absent, or `.` followed by ≥ 1 digit. -/
def parseJFrac : List Char → Option (List Char)
  | [] => some []
  | c :: t =>
    if c = '.' then
      if (t.takeWhile Char.isDigit).isEmpty then none
      else some (t.dropWhile Char.isDigit)
    else some (c :: t)

/-- Optional JSON exponent part: absent, or `e`/`E`, optional sign, ≥ 1 digit. -/
def parseJExp : List Char → Option (List Char)
  | [] => some []
  | c :: t =>
    if c = 'e' || c = 'E' then
      let t2 := match t with
        | s :: r => if s = '+' || s = '-' then r else s :: r
        | [] => []
      if (t2.takeWhile Char.isDigit).isEmpty then none
      else some (t2.dropWhile Char.isDigit)
    else some (c :: t)

/-- JSON number: `-? (0 | [1-9][0-9]*) frac? exp?`. -/
def parseJNum (l : List Char) : Option (Int × List Char) :=
  let p := match l with
    | c :: t => if c = '-' then (true, t) else (false, l)
    | [] => (false, [])
  match p.2 with
  | [] => none
  | c :: t =>
    if c = '0' then
      match parseJFrac t with
      | some r1 =>
        match parseJExp r1 with
        | some r2 => some (0, r2)
        | none => none
      | none => none
    else if c.isDigit then
      let ds := (c :: t).takeWhile Char.isDigit
      let rest := (c :: t).dropWhile Char.isDigit
      match parseJFrac rest with
      | some r1 =>
        match parseJExp r1 with
        | some r2 =>
          some (if p.1 then -(digitsToNat ds : Int) else (digitsToNat ds : Int), r2)
        | none => none
      | none => none
    else none

mutual

/-- Parses one JSON value (fuelled). -/
def parseJVal : Nat → List Char → Option (Json × List Char)
  | 0, _ => none
  | Nat.succ fuel, l =>
    match skipWsL l with
    | [] => none
    | c :: t =>
      if c = Char.ofNat 123 then
        match parseJObjBody fuel t with
        | some (fs, r) => some (.obj fs, r)
        | none => none
      else if c = '[' then
        match parseJArrBody fuel t with
        | some (es, r) => some (.arr es, r)
        | none => none
      else if c = '"' then
        match parseJStr t with
        | some (cs, r) => some (.str (String.mk cs), r)
        | none => none
      else if c = 't' then
        if isPrefixL "rue".data t then some (.tru, t.drop 3) else none
      else if c = 'f' then
        if isPrefixL "alse".data t then some (.fls, t.drop 4) else none
      else if c = 'n' then
        if isPrefixL "ull".data t then some (.null, t.drop 3) else none
      else if c = '-' || c.isDigit then
        match parseJNum (c :: t) with
        | some (v, r) => some (.num v, r)
        | none => none
      else none

/-- Parses an object body after the opening brace. -/
def parseJObjBody : Nat → List Char → Option (List (String × Json) × List Char)
  | 0, _ => none
  | Nat.succ fuel, l =>
    match skipWsL l with
    | [] => none
    | c :: t =>
      if c = Char.ofNat 125 then some ([], t)
      else parseJMembers fuel (c :: t)

/-- Parses ≥ 1 comma-separated object members, then the closing brace. -/
def parseJMembers : Nat → List Char → Option (List (String × Json) × List Char)
  | 0, _ => none
  | Nat.succ fuel, l =>
    match skipWsL l with
    | [] => none
    | c :: t =>
      if c = '"' then
        match parseJStr t with
        | some (k, r1) =>
          match skipWsL r1 with
          | ':' :: r2 =>
            match parseJVal fuel r2 with
            | some (v, r3) =>
              match skipWsL r3 with
              | [] => none
              | c2 :: r4 =>
                if c2 = ',' then
                  match parseJMembers fuel r4 with
                  | some (fs, r5) => some ((String.mk k, v) :: fs, r5)
                  | none => none
                else if c2 = Char.ofNat 125 then some ([(String.mk k, v)], r4)
                else none
            | none => none
          | _ => none
        | none => none
      else none

/-- Parses an array body after the opening bracket. -/
def parseJArrBody : Nat → List Char → Option (List Json × List Char)
  | 0, _ => none
  | Nat.succ fuel, l =>
    match skipWsL l with
    | [] => none
    | c :: t =>
      if c = ']' then some ([], t)
      else parseJElems fuel (c :: t)

/-- Parses ≥ 1 comma-separated array elements, then the closing bracket. -/
def parseJElems : Nat → List Char → Option (List Json × List Char)
  | 0, _ => none
  | Nat.succ fuel, l =>
    match parseJVal fuel l with
    | some (v, r1) =>
      match skipWsL r1 with
      | [] => none
      | c :: r2 =>
        if c = ',' then
          match parseJElems fuel r2 with
          | some (es, r3) => some (v :: es, r3)
          | none => none
        else if c = ']' then some ([v], r2)
        else none
    | none => none

end

/-- `JSON.parse`: one value, then only trailing whitespace. -/
def jsonParse (s : String) : Option Json :=
  match parseJVal (3 * s.length + 8) s.data with
  | some (j, rest) => if (skipWsL rest).isEmpty then some j else none
  | none => none

/-! ## Response validator / ranker (`groq-service.js`) -/

/-- One entry of the final suggestion list: `{text, derivation}`. -/
structure Suggestion where
  text : String
  derivation : String
deriving DecidableEq, Repr

/-- The result object produced by `GroqService` (`reason`,
`suggestions`, optional `isFormFill` / `error`). -/
structure GroqResult where
  reason : String
  suggestions : List Suggestion
  isFormFill : Bool := false
  error : Option String := none
deriving DecidableEq, Repr

/-- JS truthiness of a JSON value. -/
def jsTruthy : Json → Bool
  | .null => false
  | .fls => false
  | .num n => n ≠ 0
  | .str s => s ≠ ""
  | _ => true

mutual

/-- JS `String(v)` on a JSON value (`Array.prototype.join` turns `null`
elements into the empty string). -/
def jsToString : Json → String
  | .null => "null"
  | .tru => "true"
  | .fls => "false"
  | .num n => toString n
  | .str s => s
  | .arr es => String.intercalate "," (jsToStringList es)
  | .obj _ => "[object Object]"

/-- Element conversions for `Array.prototype.join`. -/
def jsToStringList : List Json → List String
  | [] => []
  | .null :: t => "" :: jsToStringList t
  | e :: t => jsToString e :: jsToStringList t

end

/-- Object property access; `JSON.parse` keeps the last duplicate key. -/
def jsonLookup (fields : List (String × Json)) (k : String) : Option Json :=
  fields.reverse.lookup k

/-- A raw suggestion entry as inspected by `validateSuggestions`:
a string, an object with the recognised (truthy, stringified)
properties, or anything else. -/
inductive RawSug
  | str (s : String)
  | obj (text suggestion derivation explanation reason : Option String)
  | other
deriving DecidableEq, Repr

/-- JS `a || b` on already-extracted optional strings (a present empty
string is falsy). -/
def jsOrO (a b : Option String) : Option String :=
  match a with
  | some s => if s = "" then b else some s
  | none => b

/-- The `.map` step of `validateSuggestions`: normalise an entry to
`{text, derivation}` or `null`. -/
def toSug : RawSug → Option Suggestion
  | .str s => some ⟨jsTrim s, "Based on context"⟩
  | .obj text suggestion derivation explanation reason =>
    match jsOrO text suggestion with
    | some t =>
      if t = "" then none
      else
        some ⟨jsTrim t,
          match jsOrO derivation (jsOrO explanation reason) with
          | some d => if d = "" then "Based on context" else jsTrim d
          | none => "Based on context"⟩
    | none => none
  | .other => none

/-- The characters of the regex class in `/^[{}\[\]"'`]+$/` (braces,
brackets, double quote, apostrophe, backtick). -/
def bracketPunctChar (c : Char) : Bool :=
  c = Char.ofNat 123 || c = Char.ofNat 125 || c = '[' || c = ']' ||
    c = '"' || c = Char.ofNat 39 || c = Char.ofNat 96

/-- The `.filter` step of `validateSuggestions`. -/
def validSug (s : Suggestion) : Bool :=
  s.text ≠ "" && 3 ≤ s.text.length && s.text.length ≤ 200 &&
    !(s.text.data.all bracketPunctChar) &&
    !(strContains (jsLower s.text) "reason:") &&
    !(strContains (jsLower s.text) "suggestions:")

/-- `GroqService.validateSuggestions`: normalise, drop malformed
entries, cap at 3. -/
def validateSuggestions (l : List RawSug) : List Suggestion :=
  (((l.filterMap toSug).filter validSug).take 3)

/-- Positional source label of `validateSuggestionOrdering`. -/
def sourceLabelAt (i : Nat) : String :=
  if i = 0 then "Session" else if i = 1 then "Context" else "Smart"

/-- JS `String.prototype.startsWith`. -/
def startsWithS (s pre : String) : Bool := isPrefixL pre.data s.data

/-- `GroqService.validateSuggestionOrdering`: prefix each derivation
with its positional label unless it already starts with it. -/
def validateSuggestionOrdering (l : List Suggestion) : List Suggestion :=
  l.enum.map fun p =>
    let lab := sourceLabelAt p.1
    ⟨p.2.text, if startsWithS p.2.derivation lab then p.2.derivation
               else lab ++ ": " ++ p.2.derivation⟩

/-- Code-fence stripping of `parseResponse`
(`trim`, `replace(/^```json\s*/i)`, `replace(/^```\s*/)`,
`replace(/```\s*$/)`, `trim`). -/
def stripFences (content : String) : String :=
  let l := (jsTrim content).data
  let l1 :=
    if isPrefixL ("```".data) l then
      let r := l.drop 3
      if (r.take 4).map Char.toLower = "json".data then
        (r.drop 4).dropWhile Char.isWhitespace
      else r.dropWhile Char.isWhitespace
    else l
  let l2 :=
    let rl := l1.reverse.dropWhile Char.isWhitespace
    if isPrefixL ("```".data) rl then (rl.drop 3).reverse else l1
  jsTrim (String.mk l2)

/-- The greedy match `/\{[\s\S]*\}/`: from the first opening brace to
the last closing brace after it. -/
def braceSubstring (s : String) : Option String :=
  let rest := s.data.dropWhile (· ≠ Char.ofNat 123)
  match rest with
  | [] => none
  | _ =>
    let kept := (rest.reverse.dropWhile (· ≠ Char.ofNat 125)).reverse
    if kept.isEmpty then none else some (String.mk kept)

/-- `parsed.suggestions` when `parsed` is truthy, an object, and the
property is a non-empty array. -/
def getSuggestionsArr (j : Json) : Option (List Json) :=
  match j with
  | .obj fields =>
    match jsonLookup fields "suggestions" with
    | some (.arr l) => if l.isEmpty then none else some l
    | _ => none
  | _ => none

/-- `parsed.reason || 'Based on your browsing context'` (non-string
truthy reasons are kept via their string conversion). -/
def reasonOf (j : Json) : String :=
  match j with
  | .obj fields =>
    match jsonLookup fields "reason" with
    | some v => if jsTruthy v then jsToString v else "Based on your browsing context"
    | none => "Based on your browsing context"
  | _ => "Based on your browsing context"

/-- Property read of a suggestion-entry object: present and truthy
values, stringified. -/
def jsonFieldStr (fields : List (String × Json)) (k : String) : Option String :=
  match jsonLookup fields k with
  | some v => if jsTruthy v then some (jsToString v) else none
  | none => none

/-- A parsed array element as seen by `validateSuggestions`. -/
def jsonToRaw : Json → RawSug
  | .str s => .str s
  | .obj fields =>
    .obj (jsonFieldStr fields "text") (jsonFieldStr fields "suggestion")
      (jsonFieldStr fields "derivation") (jsonFieldStr fields "explanation")
      (jsonFieldStr fields "reason")
  | _ => .other

/-- One parse attempt of `parseResponse`: parse, require a non-empty
`suggestions` array, validate, normalise and label; `none` means this
attempt falls through. -/
def attemptParse (s : String) : Option GroqResult :=
  match jsonParse s with
  | none => none
  | some parsed =>
    match getSuggestionsArr parsed with
    | none => none
    | some arr =>
      let sugs := validateSuggestions (arr.map jsonToRaw)
      let normalized := sugs.map fun s => Suggestion.mk s.text (jsOrS s.derivation "Based on context")
      let validated := validateSuggestionOrdering normalized
      if validated.isEmpty then none
      else some { reason := reasonOf parsed, suggestions := validated }

/-- `GroqService.parseResponse`: direct parse of the fence-stripped
text, then parse of the outermost brace-delimited substring, then the
diagnostic empty result. -/
def parseResponse (content : String) : GroqResult :=
  let cleaned := stripFences content
  match attemptParse cleaned with
  | some r => r
  | none =>
    match braceSubstring cleaned with
    | some sub =>
      match attemptParse sub with
      | some r => r
      | none => { reason := "Could not parse AI response", suggestions := [] }
    | none => { reason := "Could not parse AI response", suggestions := [] }

/-! ## Inference client (`GroqService.callWithRetry`)

One `HttpResponse` is consumed per HTTP attempt.  The `retry-after`
header is modelled post-`parseFloat`, in milliseconds (`parseFloat(h) *
1000`); an absent header falls back to the default `2` seconds. -/

/-- An HTTP response as observed by `callWithRetry`. -/
structure HttpResponse where
  status : Nat
  retryAfterMs : Option Nat := none
  errorMessage : Option String := none
  content : Option String := none
deriving DecidableEq, Repr

/-- JS `Response.ok`: status in the range 200–299. -/
def HttpResponse.ok (r : HttpResponse) : Bool := 200 ≤ r.status && r.status ≤ 299

/-- Outcome of `callWithRetry`: thrown error or parsed result, along
with the number of HTTP attempts performed and the backoff delays
awaited (milliseconds). -/
structure CallOutcome where
  result : Except String GroqResult
  attempts : Nat
  delays : List Nat
deriving Repr

/-- `GroqService.callWithRetry`: one fetch per invocation; a 429 on the
first attempt waits `retry-after` (default 2 s) and retries once; any
other non-OK response, missing content, or a second 429 throws.  An
exhausted response list models a rejected fetch (network failure). -/
def callWithRetry (responses : List HttpResponse) (attempt : Nat) : CallOutcome :=
  match responses with
  | [] => ⟨.error "Network request failed", 1, []⟩
  | r :: rest =>
    if r.status = 429 && attempt = 0 then
      let d := r.retryAfterMs.getD 2000
      let o := callWithRetry rest 1
      ⟨o.result, o.attempts + 1, d :: o.delays⟩
    else if !r.ok then
      ⟨.error (r.errorMessage.getD ("API Error: " ++ toString r.status)), 1, []⟩
    else
      match r.content with
      | none => ⟨.error "No response content from Groq", 1, []⟩
      | some c => ⟨.ok (parseResponse c), 1, []⟩

/-! ## Prompt builders and pipeline of `GroqService.generateSuggestions` -/

/-- The context object consumed by `GroqService` (collector output
merged with the request, plus session intent).  `sessionSummary` and
`recentThread` are `""` when absent. -/
structure GroqContext where
  active_input_text : String := ""
  sessionSummary : String := ""
  recentThread : String := ""
  active_tabs : List TabCtx := []
  recent_history : List HistCtx := []
  fieldMeta : Option FieldMeta := none
deriving Repr

/-- Quoted, 40-character-truncated tab/history titles joined by `, `. -/
def titlesLine (titles : List String) : String :=
  String.intercalate ", " (titles.map fun t => "\"" ++ jsTake t 40 ++ "\"")

/-- `GroqService.buildContextAwarePrompt`. -/
def buildContextAwarePrompt (ctx : GroqContext) : String :=
  let parts := ["Q:\"" ++ ctx.active_input_text ++ "\""]
  let parts := parts ++
    (if ctx.sessionSummary ≠ "" then ["SESSION:" ++ ctx.sessionSummary] else [])
  let parts := parts ++
    (if ctx.recentThread ≠ "" then ["THREAD:" ++ jsTake ctx.recentThread 120] else [])
  let parts := parts ++
    (if ctx.active_tabs ≠ [] then
      ["TABS:" ++ titlesLine ((ctx.active_tabs.take 2).map TabCtx.title)] else [])
  let parts := parts ++
    (if ctx.recent_history ≠ [] then
      ["HIST:" ++ titlesLine ((ctx.recent_history.take 2).map HistCtx.title)] else [])
  String.intercalate "\n" parts

/-- `GroqService.buildFormFieldPrompt`. -/
def buildFormFieldPrompt (ctx : GroqContext) : String :=
  let ft := (ctx.fieldMeta.map fun m => m.fieldType.jsName).getD "unknown"
  let lab := (ctx.fieldMeta.map FieldMeta.fieldLabel).getD "field"
  let parts := ["FIELD_TYPE:" ++ ft, "FIELD_LABEL:\"" ++ lab ++ "\"",
    "CURRENT_VALUE:\"" ++ ctx.active_input_text ++ "\""]
  let parts := parts ++
    (if ctx.sessionSummary ≠ "" then ["SESSION:" ++ ctx.sessionSummary] else [])
  let parts := parts ++
    (if ctx.active_tabs ≠ [] then
      ["TABS:" ++ titlesLine ((ctx.active_tabs.take 2).map TabCtx.title)] else [])
  String.intercalate "\n" parts

/-- `GroqService._buildFormFillResponse`: suggestions straight from the
local candidates, no inference. -/
def buildFormFillResponse (m : FieldMeta) : GroqResult :=
  { reason := "Smart fill for \"" ++ m.fieldLabel ++ "\""
    suggestions := m.candidates.map fun c =>
      ⟨c.value, "Auto-filled from " ++ c.source⟩
    isFormFill := true }

/-- Whether the form-fill bypass of `generateSuggestions` fires
(`context.fieldMeta?.isFormFill && context.fieldMeta.candidates?.length > 0`). -/
def formFillHit (ctx : GroqContext) : Bool :=
  match ctx.fieldMeta with
  | some m => m.isFormFill && !m.candidates.isEmpty
  | none => false

/-- Execution trace of one `GroqService.generateSuggestions` run:
HTTP attempts, the user prompt built (if any), and backoff delays. -/
structure GroqTrace where
  httpAttempts : Nat
  promptUsed : Option String
  delays : List Nat
deriving Repr

/-- The body of `GroqService.generateSuggestions` before its
`try/catch`: configuration check (`getApiKey` throws when the key is
absent), form-fill bypass, prompt selection, rate-limited call. -/
def groqCore (ctx : GroqContext) (responses : List HttpResponse) (apiKeyOk : Bool) :
    Except String GroqResult × GroqTrace :=
  if !apiKeyOk then (.error "Groq API key not configured", ⟨0, none, []⟩)
  else
    match ctx.fieldMeta with
    | some m =>
      if m.isFormFill && !m.candidates.isEmpty then
        (.ok (buildFormFillResponse m), ⟨0, none, []⟩)
      else
        let o := callWithRetry responses 0
        (o.result, ⟨o.attempts, some (buildFormFieldPrompt ctx), o.delays⟩)
    | none =>
      let o := callWithRetry responses 0
      (o.result, ⟨o.attempts, some (buildContextAwarePrompt ctx), o.delays⟩)

/-- `GroqService.generateSuggestions`: the `catch` turns any thrown
error into an error-shaped empty result. -/
def groqGenerate (ctx : GroqContext) (responses : List HttpResponse) (apiKeyOk : Bool) :
    GroqResult × GroqTrace :=
  match groqCore ctx responses apiKeyOk with
  | (.ok r, tr) => (r, tr)
  | (.error e, tr) =>
    ({ reason := "Error generating suggestions", suggestions := [], error := some e }, tr)

/-! ## Background pipeline entry (`generateSuggestions` in the service
worker) -/

/-- Host-side environment of one pipeline run: extension toggle,
configuration state, the collector/session-tracker context, and the
provider responses for this request. -/
structure PipelineEnv where
  extensionEnabled : Bool := true
  configured : Bool := true
  collectorText : String := ""
  sessionSummary : String := ""
  recentThread : String := ""
  tabs : List TabCtx := []
  history : List HistCtx := []
deriving Repr

/-- The request message data sent by the content script
(`{context: {active_input_text}, fieldName, fieldMeta}`). -/
structure RequestData where
  contextText : String := ""
  fieldName : String := ""
  fieldMeta : Option FieldMeta := none
deriving Repr

/-- The response object returned to the content script. -/
structure BackendResult where
  success : Bool
  reason : Option String := none
  error : Option String := none
  suggestions : List Suggestion := []
  isFormFill : Bool := false
deriving DecidableEq, Repr

/-- The background worker `generateSuggestions`: extension toggle,
configuration check, context merge, the sensitive-input gate (which
only runs when both the merged input text and `data.fieldName` are
truthy), then the Groq service. -/
def backendGenerate (env : PipelineEnv) (data : RequestData)
    (responses : List HttpResponse) : BackendResult × GroqTrace :=
  if !env.extensionEnabled then
    (⟨true, some "Extension is disabled", none, [], false⟩, ⟨0, none, []⟩)
  else if !env.configured then
    (⟨false, none, some "Groq API key not configured", [], false⟩, ⟨0, none, []⟩)
  else
    let text := jsOrS data.contextText env.collectorText
    if text ≠ "" ∧ data.fieldName ≠ "" ∧ isSensitiveInput text data.fieldName then
      (⟨true, some "Sensitive input detected", none, [], false⟩, ⟨0, none, []⟩)
    else
      let ctx : GroqContext :=
        { active_input_text := text
          sessionSummary := env.sessionSummary
          recentThread := env.recentThread
          active_tabs := env.tabs
          recent_history := env.history
          fieldMeta := data.fieldMeta }
      let (r, tr) := groqGenerate ctx responses env.configured
      (⟨true, some r.reason, r.error, r.suggestions, r.isFormFill⟩, tr)

/-! ## Completion handling in the content script (stale results) -/

/-- The overlay as driven by `showSuggestion` / `hideSuggestion`. -/
inductive Overlay
  | hidden
  | shown (s : Suggestion) (reason : String) (isFormFill : Bool)
deriving DecidableEq, Repr

/-- Per-field display state of the content script
(`currentSuggestions`, `activeSuggestionIndex`, overlay). -/
structure DisplayState where
  currentSuggestions : List Suggestion
  activeSuggestionIndex : Nat
  overlay : Overlay
deriving DecidableEq, Repr

/-- The completion tail of the content-script `generateSuggestions`:
`value` is the input value the request was generated for, `liveValue`
the field value read back at completion (`getInputValue(input)`).  A
mismatch discards the response and leaves the state untouched
(`if (currentValue !== value) return`). -/
def completionUpdate (value liveValue : String) (response : BackendResult)
    (st : DisplayState) : DisplayState :=
  if liveValue ≠ value then st
  else if response.success then
    match response.suggestions with
    | s0 :: rest =>
      ⟨s0 :: rest, 0, .shown s0 ((response.reason).getD "") response.isFormFill⟩
    | [] => ⟨[], st.activeSuggestionIndex, .hidden⟩
  else ⟨[], st.activeSuggestionIndex, .hidden⟩

/-- Two racing requests for one field, processed in completion order:
each completion is compared against the same live field value. -/
def processCompletions (liveValue : String) (completions : List (String × BackendResult))
    (st : DisplayState) : DisplayState :=
  completions.foldl (fun acc p => completionUpdate p.1 liveValue p.2 acc) st

/-! ## Claim theorems -/

/-- C2 counterexample: the descriptor `{name: "job_title", type: "tel"}`
has a sensitive input-type tag (`tel` is in the sensitive type set of
the form detector, which classifies this very descriptor as sensitive),
yet the content-script classifier returns the category `job_title`, not
"sensitive" — its rule table has no input-type check and maps sensitive
hits to `null` rather than `"sensitive"`. -/
theorem c2_counterexample :
    fdClassifyField { name := "job_title", type := "tel" } = some .sensitive ∧
    csClassifyField { name := "job_title", type := "tel" } = some .job_title := by
  decide

/-- C2 (amended): each classifier runs its own sensitivity check first
and short-circuits.  In `form-detector.js` a sensitive keyword in the
concatenated lower-cased descriptor text, or input type `password` or
`tel`, yields "sensitive" regardless of any other rule; in the
content-script classifier a sensitive keyword hit yields the null
(no-category) result regardless of any other rule, but there is no
sensitive input-type check. -/
theorem c2_sensitivity_short_circuits :
    (∀ m : FieldDescriptor, fdSensitiveHit m = true →
      fdClassifyField m = some .sensitive) ∧
    (∀ m : FieldDescriptor, csSensitiveHit m = true → csClassifyField m = none) := by
  constructor
  · intro m h
    unfold fdSensitiveHit at h
    simp only [Bool.or_eq_true, decide_eq_true_eq] at h
    unfold fdClassifyField
    by_cases hk : (fdSensitiveKeywords.any fun k => strContains (fdCombined m) k) = true
    · simp [hk]
    · have hk2 : (fdSensitiveKeywords.any fun k => strContains (fdCombined m) k) = false := by
        simpa using hk
      rcases h with (h | h) | h
      · exact absurd h (by simp [hk2])
      · simp [hk2, h]
      · simp [hk2, h]
  · intro m h
    unfold csSensitiveHit at h
    simp only [csClassifyField, csPatterns]
    rw [List.find?_cons_of_pos _ (by exact h)]
    rfl

/-- C2 witness: the amended theorem applied to concrete descriptors. -/
theorem c2_witness :
    fdClassifyField { name := "secret-question" } = some .sensitive ∧
    csClassifyField { name := "user_password" } = none :=
  ⟨c2_sensitivity_short_circuits.1 _ (by decide),
   c2_sensitivity_short_circuits.2 _ (by decide)⟩

/-- C4: the sliding-window limiter does not gate inference.  After ten
admissions at time 9 the limiter state is exhausted (`checkLimit`
rejects an eleventh check), yet the pipeline — which consults no limiter
state anywhere — still performs the HTTP inference attempt for a plain
request and returns no remaining-quota or time-to-reset information:
nothing in the repository ever calls `RateLimiter`. -/
theorem c4_limiter_never_consulted :
    (checkLimit 9 (runChecks (List.replicate 10 9) []).2).1 = false ∧
    getTimeUntilReset 9 (runChecks (List.replicate 10 9) []).2 = 60000 ∧
    (backendGenerate {} { contextText := "python async", fieldName := "q" }
        [{ status := 200, content := some "no json here" }]).2.httpAttempts = 1 ∧
    (backendGenerate {} { contextText := "python async", fieldName := "q" }
        [{ status := 200, content := some "no json here" }]).1.success = true := by
  decide

/-- C6: every context-snapshot list respects its cap for all host
input: the other-tabs list has at most 5 entries and contains no
sensitive-domain tab and not the active tab; the recent-navigation list
has at most 15 entries however large the history store; the
topic-frequency list has at most 5 entries. -/
theorem c6_snapshot_caps :
    (∀ (tabs : List BrowserTab) (cur : Option BrowserTab),
      (getActiveTabsContext tabs cur).length ≤ 5 ∧
      ∀ x ∈ getActiveTabsContext tabs cur,
        ∃ tab ∈ tabs, x.title = tab.title ∧ x.url = tab.url ∧
          isSensitiveDomain tab.url = false ∧
          ∀ ct, cur = some ct → tab.id ≠ ct.id) ∧
    (∀ (store : List HistoryItem) (now : Nat),
      (getRecentHistory store now).length ≤ 15) ∧
    (∀ (store : List HistoryItem) (now : Nat),
      (getTopVisitedTitles store now).length ≤ 5) := by
  refine ⟨fun tabs cur => ⟨?_, ?_⟩, fun store now => ?_, fun store now => ?_⟩
  · unfold getActiveTabsContext
    calc _ = _ := List.length_map _ _
      _ ≤ 5 := by rw [List.length_take]; exact Nat.min_le_left _ _
  · intro x hx
    unfold getActiveTabsContext at hx
    obtain ⟨tab, htab, hshape⟩ := List.mem_map.mp hx
    have htab2 := List.mem_of_mem_take htab
    have hmem := List.mem_of_mem_filter htab2
    have hp := List.of_mem_filter htab2
    simp only [Bool.and_eq_true, Bool.not_eq_true'] at hp
    refine ⟨tab, hmem, ?_, ?_, hp.2, ?_⟩
    · exact (congrArg TabCtx.title hshape).symm
    · exact (congrArg TabCtx.url hshape).symm
    · intro ct hct
      have := hp.1
      rw [hct] at this
      simpa using this
  · unfold getRecentHistory
    calc _ = _ := List.length_map _ _
      _ ≤ (chromeHistorySearch store (now - 2 * 60 * 60 * 1000) 15).length :=
        List.length_filter_le _ _
      _ ≤ 15 := by
        unfold chromeHistorySearch
        rw [List.length_take]; exact Nat.min_le_left _ _
  · unfold getTopVisitedTitles
    calc _ = _ := List.length_map _ _
      _ ≤ 5 := by rw [List.length_take]; exact Nat.min_le_left _ _

/-- C6 witness: the caps hold on a concrete oversized feed (40 copies
of the same history item still give at most 15 recent entries). -/
theorem c6_witness :
    (getRecentHistory
      (List.replicate 40 (⟨"Async IO", "https://realpython.com", 3, 999999999⟩ : HistoryItem))
      1000000000).length ≤ 15 :=
  c6_snapshot_caps.2.1 _ _

/-- C10: a completed request whose live field value differs from the
value it was generated for is discarded unconditionally (the display
state is left untouched); in the two-request race, the stale first
result is dropped and the second result — matching the live value —
is the one displayed. -/
theorem c10_stale_result_discarded :
    (∀ (value liveValue : String) (resp : BackendResult) (st : DisplayState),
      liveValue ≠ value → completionUpdate value liveValue resp st = st) ∧
    (∀ (v1 v2 : String) (resp1 resp2 : BackendResult) (st : DisplayState)
        (s0 : Suggestion) (sl : List Suggestion),
      v1 ≠ v2 → resp2.success = true → resp2.suggestions = s0 :: sl →
      processCompletions v2 [(v1, resp1), (v2, resp2)] st =
        ⟨s0 :: sl, 0, .shown s0 (resp2.reason.getD "") resp2.isFormFill⟩) := by
  have hstale : ∀ (value liveValue : String) (resp : BackendResult) (st : DisplayState),
      liveValue ≠ value → completionUpdate value liveValue resp st = st := by
    intro value liveValue resp st h
    unfold completionUpdate
    rw [if_pos h]
  refine ⟨hstale, ?_⟩
  intro v1 v2 resp1 resp2 st s0 sl hne hsucc hsugg
  unfold processCompletions
  simp only [List.foldl]
  rw [hstale v1 v2 resp1 st (Ne.symm hne)]
  unfold completionUpdate
  rw [if_neg (by simp), if_pos hsucc, hsugg]

/-- C10 witness: the stale-discard theorem applied to a concrete pair
of racing requests. -/
theorem c10_witness :
    processCompletions "py"
      [("p", ⟨true, some "r1", none, [⟨"stale one", "Session: s"⟩], false⟩),
       ("py", ⟨true, some "r2", none, [⟨"fresh one", "Session: s"⟩], false⟩)]
      ⟨[], 0, .hidden⟩ =
      ⟨[⟨"fresh one", "Session: s"⟩], 0, .shown ⟨"fresh one", "Session: s"⟩ "r2" false⟩ :=
  c10_stale_result_discarded.2 "p" "py" _ _ _ _ _ (by decide) rfl rfl

/-- C1 counterexample: a request whose active input text matches the
sensitive pattern `/password/i` but whose `fieldName` is empty skips
the sensitive gate entirely (the gate is guarded by
`active_input_text && data.fieldName`): the pipeline builds a prompt
from the sensitive text and performs the HTTP inference attempt instead
of returning the neutral empty result. -/
theorem c1_counterexample :
    isSensitiveInput "my password" "" = true ∧
    (backendGenerate {} { contextText := "my password", fieldName := "" }
        [{ status := 200, content := some "x" }]).2.httpAttempts = 1 ∧
    (backendGenerate {} { contextText := "my password", fieldName := "" }
        [{ status := 200, content := some "x" }]).2.promptUsed =
      some "Q:\"my password\"" ∧
    (backendGenerate {} { contextText := "my password", fieldName := "" }
        [{ status := 200, content := some "x" }]).1.reason ≠
      some "Sensitive input detected" := by
  decide

/-- C1 (amended): the sensitive gate only runs when both the merged
active input text and the request field name are non-empty; in that
case, a sensitive match returns the neutral `"Sensitive input
detected"` result with no suggestions, no prompt is constructed and no
inference call is made.  When either string is empty the gate is
skipped even if the other matches a sensitive pattern. -/
theorem c1_sensitive_gate (env : PipelineEnv) (data : RequestData)
    (responses : List HttpResponse)
    (hEnabled : env.extensionEnabled = true) (hConf : env.configured = true)
    (hText : jsOrS data.contextText env.collectorText ≠ "")
    (hName : data.fieldName ≠ "")
    (hSens : isSensitiveInput (jsOrS data.contextText env.collectorText) data.fieldName
      = true) :
    backendGenerate env data responses =
      (⟨true, some "Sensitive input detected", none, [], false⟩, ⟨0, none, []⟩) := by
  unfold backendGenerate
  rw [hEnabled, hConf]
  simp only [Bool.not_true, Bool.false_eq_true, if_false]
  rw [if_pos ⟨hText, hName, hSens⟩]

/-- C1 witness: the amended gate applied to a concrete sensitive
request. -/
theorem c1_witness :
    backendGenerate {} { contextText := "password123", fieldName := "pwd" } [] =
      (⟨true, some "Sensitive input detected", none, [], false⟩, ⟨0, none, []⟩) :=
  c1_sensitive_gate {} _ [] rfl rfl (by decide) (by decide) (by decide)

/-- C3 counterexample: an `os`-classified field on a platform identity
string that contains `"Windows NT 10"` need not yield the candidate
`"Windows 10"`: `detectOS` tests `/Windows NT 11/` first, so a string
containing both tokens yields `"Windows 11"`. -/
theorem c3_counterexample :
    strContains "Windows NT 11; Windows NT 10" "Windows NT 10" = true ∧
    csClassifyField { name := "platform" } = some .os ∧
    buildFieldMeta { name := "platform" } "Windows NT 11; Windows NT 10" "" =
      some { fieldType := .os, fieldLabel := "platform", isFormFill := true,
             candidates := [⟨"Windows 11", "Your device", 100⟩] } := by
  decide

/-- C3 (amended): a request whose field metadata is marked form-fill
with a non-empty candidate list is answered from those candidates alone
(candidate values as suggestion texts, `Auto-filled from …` derivation
labels, the form-fill flag set) with no HTTP attempt and no prompt; and
an `os`-classified field on a platform string containing
`"Windows NT 10"` but not `"Windows NT 11"` yields the single local
candidate `"Windows 10"` from `Your device` with confidence 1.0
(scaled: 100). -/
theorem c3_form_fill_bypass :
    (∀ (ctx : GroqContext) (responses : List HttpResponse) (m : FieldMeta),
      ctx.fieldMeta = some m → m.isFormFill = true → m.candidates ≠ [] →
      groqGenerate ctx responses true =
        ({ reason := "Smart fill for \"" ++ m.fieldLabel ++ "\"",
           suggestions := m.candidates.map fun c =>
             ⟨c.value, "Auto-filled from " ++ c.source⟩,
           isFormFill := true, error := none }, ⟨0, none, []⟩)) ∧
    (∀ (e : FieldDescriptor) (ua nearbyLabel : String),
      csClassifyField e = some .os →
      strContains ua "Windows NT 10" = true →
      strContains ua "Windows NT 11" = false →
      ∃ fm, buildFieldMeta e ua nearbyLabel = some fm ∧
        fm.isFormFill = true ∧
        fm.candidates = [⟨"Windows 10", "Your device", 100⟩]) := by
  constructor
  · intro ctx responses m hm hff hcand
    unfold groqGenerate groqCore
    rw [hm]
    simp only [Bool.not_true, Bool.false_eq_true, if_false]
    rw [if_pos (by simp [hff, hcand])]
    rfl
  · intro e ua nearbyLabel hcat h10 h11
    unfold buildFieldMeta
    rw [hcat]
    have hos : detectOS ua = some "Windows 10" := by
      unfold detectOS
      rw [h11, h10]
      rfl
    simp only [if_pos rfl]
    rw [hos]
    exact ⟨_, rfl, rfl, rfl⟩

/-- C3 witness: the bypass and the OS scenario at concrete inputs. -/
theorem c3_witness :
    (groqGenerate
        { fieldMeta := some ⟨.os, "Operating system", true,
            [⟨"Windows 10", "Your device", 100⟩]⟩ } [] true =
      ({ reason := "Smart fill for \"Operating system\"",
         suggestions := [⟨"Windows 10", "Auto-filled from Your device"⟩],
         isFormFill := true, error := none }, ⟨0, none, []⟩)) ∧
    (∃ fm, buildFieldMeta { name := "platform" } "Mozilla (Windows NT 10.0; Win64)" "" =
        some fm ∧ fm.isFormFill = true ∧
        fm.candidates = [⟨"Windows 10", "Your device", 100⟩]) :=
  ⟨by
    exact c3_form_fill_bypass.1 _ []
      ⟨.os, "Operating system", true, [⟨"Windows 10", "Your device", 100⟩]⟩
      rfl rfl (by decide),
   c3_form_fill_bypass.2 _ _ "" (by decide) (by decide) (by decide)⟩

/-- On the retry attempt (`attempt = 1`) `callWithRetry` performs
exactly one further fetch and never waits again. -/
lemma callWithRetry_retry_attempt (rs : List HttpResponse) :
    (callWithRetry rs 1).attempts = 1 ∧ (callWithRetry rs 1).delays = [] := by
  cases rs with
  | nil => exact ⟨rfl, rfl⟩
  | cons r rest =>
    unfold callWithRetry
    have h : (r.status = 429 && (1 : Nat) = 0) = false := by simp
    rw [if_neg (by simp)]
    split
    · exact ⟨rfl, rfl⟩
    · split <;> exact ⟨rfl, rfl⟩

/-- C7: at most two HTTP attempts ever occur per request; a second
attempt occurs exactly when the first response is a provider 429, and
it is delayed by the provider-supplied backoff or the fixed 2-second
default when absent; a first non-429 failure is terminal after one
attempt with the provider message, and a 429 followed by any second
failure (including another 429) is terminal. -/
theorem c7_retry_once_on_429 (r1 : HttpResponse) (rest : List HttpResponse) :
    (callWithRetry (r1 :: rest) 0).attempts ≤ 2 ∧
    ((callWithRetry (r1 :: rest) 0).attempts = 2 ↔ r1.status = 429) ∧
    (r1.status = 429 →
      (callWithRetry (r1 :: rest) 0).delays = [r1.retryAfterMs.getD 2000]) ∧
    (r1.status ≠ 429 → r1.ok = false →
      (callWithRetry (r1 :: rest) 0).result =
        .error (r1.errorMessage.getD ("API Error: " ++ toString r1.status)) ∧
      (callWithRetry (r1 :: rest) 0).attempts = 1) ∧
    (∀ r2 rest2, rest = r2 :: rest2 → r1.status = 429 → r2.ok = false →
      (callWithRetry (r1 :: rest) 0).result =
        .error (r2.errorMessage.getD ("API Error: " ++ toString r2.status))) := by
  by_cases h429 : r1.status = 429
  · have hcond : (r1.status = 429 && (0 : Nat) = 0) = true := by simp [h429]
    have hstep :
        callWithRetry (r1 :: rest) 0 =
          ⟨(callWithRetry rest 1).result, (callWithRetry rest 1).attempts + 1,
            r1.retryAfterMs.getD 2000 :: (callWithRetry rest 1).delays⟩ := by
      conv_lhs => unfold callWithRetry
      rw [if_pos (by simp [h429])]
    have hone := callWithRetry_retry_attempt rest
    refine ⟨?_, ?_, ?_, ?_, ?_⟩
    · rw [hstep]; simp [hone.1]
    · rw [hstep]; simp [hone.1, h429]
    · intro _; rw [hstep]; simp [hone.2]
    · intro hne _; exact absurd h429 hne
    · intro r2 rest2 hrest h4 hok
      rw [hstep, hrest]
      show (callWithRetry (r2 :: rest2) 1).result = _
      conv_lhs => unfold callWithRetry
      rw [if_neg (by simp), if_pos (by simp [hok])]
  · have hstep0 : (r1.status = 429 && (0 : Nat) = 0) = false := by simp [h429]
    by_cases hok : r1.ok = true
    · have hstep :
          callWithRetry (r1 :: rest) 0 =
            match r1.content with
            | none => ⟨.error "No response content from Groq", 1, []⟩
            | some c => ⟨.ok (parseResponse c), 1, []⟩ := by
        unfold callWithRetry
        rw [if_neg (by simp [h429]), if_neg (by simp [hok])]
      refine ⟨?_, ?_, ?_, ?_, ?_⟩
      · rw [hstep]; cases r1.content <;> simp
      · rw [hstep]
        constructor
        · intro h2
          exfalso
          cases hc : r1.content <;> rw [hc] at h2 <;> simp at h2
        · intro h; exact absurd h h429
      · intro h; exact absurd h h429
      · intro _ hfalse; rw [hok] at hfalse; exact absurd hfalse (by simp)
      · intro r2 rest2 _ h4 _; exact absurd h4 h429
    · have hokf : r1.ok = false := by
        cases h : r1.ok
        · rfl
        · exact absurd h hok
      have hstep :
          callWithRetry (r1 :: rest) 0 =
            ⟨.error (r1.errorMessage.getD ("API Error: " ++ toString r1.status)), 1, []⟩ := by
        unfold callWithRetry
        rw [if_neg (by simp [h429]), if_pos (by simp [hokf])]
      refine ⟨?_, ?_, ?_, ?_, ?_⟩
      · rw [hstep]; simp
      · rw [hstep]; simp [h429]
      · intro h; exact absurd h h429
      · intro _ _; rw [hstep]; exact ⟨rfl, rfl⟩
      · intro r2 rest2 _ h4 _; exact absurd h4 h429

/-- C7 witness: a 429 with a 1.5-second `retry-after` followed by a 500
is retried exactly once, waits the provider backoff, and fails with the
provider message. -/
theorem c7_witness :
    (callWithRetry [⟨429, some 1500, none, none⟩, ⟨500, none, some "boom", none⟩] 0).attempts
        = 2 ∧
    (callWithRetry [⟨429, some 1500, none, none⟩, ⟨500, none, some "boom", none⟩] 0).delays
        = [1500] ∧
    (callWithRetry [⟨429, some 1500, none, none⟩, ⟨500, none, some "boom", none⟩] 0).result
        = .error "boom" := by
  refine ⟨?_, ?_, ?_⟩
  · exact (c7_retry_once_on_429 ⟨429, some 1500, none, none⟩ _).2.1.mpr rfl
  · exact (c7_retry_once_on_429 ⟨429, some 1500, none, none⟩ _).2.2.1 rfl
  · exact (c7_retry_once_on_429 ⟨429, some 1500, none, none⟩ _).2.2.2.2 _ [] rfl rfl rfl

/-- C8: every suggestion entry surviving `validateSuggestions` has text
of 3 to 200 characters that is not composed purely of
punctuation/bracket characters and does not contain the schema field
names `reason:` / `suggestions:`; survivors are taken unchanged from
the input entries (dropped, never corrected); and the surviving list is
capped at 3 entries. -/
theorem c8_validate_suggestions (l : List RawSug) :
    (validateSuggestions l).length ≤ 3 ∧
    ∀ s ∈ validateSuggestions l,
      3 ≤ s.text.length ∧ s.text.length ≤ 200 ∧
      s.text.data.all bracketPunctChar = false ∧
      strContains (jsLower s.text) "reason:" = false ∧
      strContains (jsLower s.text) "suggestions:" = false ∧
      ∃ r ∈ l, toSug r = some s := by
  constructor
  · unfold validateSuggestions
    rw [List.length_take]
    exact Nat.min_le_left _ _
  · intro s hs
    unfold validateSuggestions at hs
    have hs2 := List.mem_of_mem_take hs
    have hvalid := List.of_mem_filter hs2
    have hmem := List.mem_of_mem_filter hs2
    obtain ⟨r, hr, hrs⟩ := List.mem_filterMap.mp hmem
    unfold validSug at hvalid
    simp only [Bool.and_eq_true, decide_eq_true_eq, Bool.not_eq_true'] at hvalid
    exact ⟨hvalid.1.1.1.1.2, hvalid.1.1.1.2, hvalid.1.1.2, hvalid.1.2, hvalid.2,
      r, hr, hrs⟩

/-- A sample model output list exercising the `validateSuggestions`
checks: a too-short entry, a pure-punctuation entry, a schema-echo
entry, and four valid entries (one over the cap). -/
def sampleRawSugs : List RawSug :=
  [.str "ab", .str "\x7b\x7d[]", .obj (some "the reason: ok") none none none none,
   .str "how does asyncio work", .str "python asyncio event loop",
   .str "asyncio vs threads in python", .str "structured concurrency"]

/-- C8 witness: the validator theorem applied to the sample list, with
its per-entry guarantees instantiated at a concrete surviving entry. -/
theorem c8_witness :
    (validateSuggestions sampleRawSugs).length ≤ 3 ∧
    (3 ≤ ("how does asyncio work" : String).length ∧
      ("how does asyncio work" : String).length ≤ 200 ∧
      ("how does asyncio work" : String).data.all bracketPunctChar = false ∧
      strContains (jsLower "how does asyncio work") "reason:" = false ∧
      strContains (jsLower "how does asyncio work") "suggestions:" = false ∧
      ∃ r ∈ sampleRawSugs,
        toSug r = some ⟨"how does asyncio work", "Based on context"⟩) :=
  ⟨(c8_validate_suggestions sampleRawSugs).1,
   (c8_validate_suggestions sampleRawSugs).2
     ⟨"how does asyncio work", "Based on context"⟩ (by decide)⟩

/-- C9: when both parse attempts fail — the direct parse of the
fence-stripped text and the parse of the outermost brace-delimited
substring — `parseResponse` returns the empty suggestion list with the
diagnostic reason; and pipeline-internal failures never escape as
exceptions: every error thrown inside the Groq service resolves to the
error-shaped empty result, and the worker entry point always hands the
host layer a well-formed response (a success result, or a failure
carrying an empty suggestion list). -/
theorem c9_parse_failure_contained :
    (∀ content : String,
      attemptParse (stripFences content) = none →
      (braceSubstring (stripFences content)).bind attemptParse = none →
      parseResponse content =
        { reason := "Could not parse AI response", suggestions := [] }) ∧
    (∀ (ctx : GroqContext) (responses : List HttpResponse) (apiKeyOk : Bool) (e : String),
      (groqCore ctx responses apiKeyOk).1 = .error e →
      (groqGenerate ctx responses apiKeyOk).1 =
        { reason := "Error generating suggestions", suggestions := [], error := some e }) ∧
    (∀ (env : PipelineEnv) (data : RequestData) (responses : List HttpResponse),
      (backendGenerate env data responses).1.success = true ∨
        (backendGenerate env data responses).1.suggestions = []) := by
  refine ⟨?_, ?_, ?_⟩
  · intro content h1 h2
    simp only [parseResponse]
    rw [h1]
    cases hb : braceSubstring (stripFences content) with
    | none => rfl
    | some sub =>
      rw [hb] at h2
      rw [Option.some_bind] at h2
      simp [h2]
  · intro ctx responses apiKeyOk e herr
    unfold groqGenerate
    cases hc : groqCore ctx responses apiKeyOk with
    | mk r tr =>
      rw [hc] at herr
      simp only at herr
      rw [herr]
  · intro env data responses
    simp only [backendGenerate]
    split
    · exact Or.inl rfl
    · split
      · exact Or.inr rfl
      · split
        · exact Or.inl rfl
        · exact Or.inl rfl

/-- C9 witness: a payload that fails both parse attempts yields the
diagnostic empty result; a missing API key is caught and shaped, and
the worker response for it is well-formed. -/
theorem c9_witness :
    parseResponse "the model returned prose \x7bnot json\x7d here" =
      { reason := "Could not parse AI response", suggestions := [] } ∧
    (groqGenerate { active_input_text := "q" } [] false).1 =
      { reason := "Error generating suggestions", suggestions := [],
        error := some "Groq API key not configured" } ∧
    ((backendGenerate {} { contextText := "hi" } []).1.success = true ∨
      (backendGenerate {} { contextText := "hi" } []).1.suggestions = []) :=
  ⟨c9_parse_failure_contained.1 _ (by decide) (by decide),
   c9_parse_failure_contained.2.1 _ [] false _ (by rfl),
   c9_parse_failure_contained.2.2 {} _ []⟩

/-- Membership of a timestamp in the rolling window `[w, w + windowMs)`. -/
def inWindow (w u : Nat) : Bool := decide (w ≤ u) && decide (u < w + windowMs)

/-- The timestamps of admitted checks, read off a decision trace. -/
def admittedZip (ts : List Nat) (ds : List Bool) : List Nat :=
  (ts.zip ds).filterMap fun p => if p.2 then some p.1 else none

/-- Re-filtering at a later `now` absorbs an earlier window filter. -/
lemma window_filter_absorb (A : List Nat) (t t' : Nat) (h : t ≤ t') :
    ((A.filter fun u => t - u < windowMs).filter fun u => t' - u < windowMs) =
      A.filter fun u => t' - u < windowMs := by
  rw [List.filter_filter]
  apply List.filter_congr
  intro u _
  by_cases h2 : t' - u < windowMs
  · have h3 : t - u < windowMs := lt_of_le_of_lt (Nat.sub_le_sub_right h u) h2
    simp [h2, h3]
  · simp [h2]

/-- A nondecreasing sequence stays nondecreasing after dropping its head. -/
lemma timesSorted_tail (t : Nat) (ts : List Nat) (h : timesSorted (t :: ts) = true) :
    timesSorted ts = true := by
  cases ts with
  | nil => rfl
  | cons b tb =>
    simp only [timesSorted, Bool.and_eq_true] at h
    exact h.2

/-- The head of a nondecreasing sequence bounds the next element. -/
lemma timesSorted_head_le (t : Nat) (ts : List Nat) (h : timesSorted (t :: ts) = true) :
    ∀ t0, ts.head? = some t0 → t ≤ t0 := by
  cases ts with
  | nil => intro t0 h0; cases h0
  | cons b tb =>
    intro t0 h0
    injection h0 with h0
    subst h0
    simp only [timesSorted, Bool.and_eq_true, decide_eq_true_eq] at h
    exact h.1

/-- Invariant of the limiter run: over nondecreasing check times, the
limiter state is exactly the window filter of the full admitted
history, so the code's decisions coincide with the specification model
"admit iff fewer than the cap of admitted timestamps lie inside the
current window". -/
lemma runChecks_eq_specAdmitModel (ts : List Nat) : ∀ (tprev : Nat) (A : List Nat),
    timesSorted ts = true →
    (∀ t0, ts.head? = some t0 → tprev ≤ t0) →
    (∀ u ∈ A, u ≤ tprev) →
    (runChecks ts (A.filter fun u => tprev - u < windowMs)).1 = specAdmitModel ts A := by
  induction ts with
  | nil => intro tprev A _ _ _; rfl
  | cons t ts ih =>
    intro tprev A hts hfirst hA
    have htprev : tprev ≤ t := hfirst t rfl
    have hts' := timesSorted_tail t ts hts
    have hfirst' := timesSorted_head_le t ts hts
    have hstate : checkLimit t (A.filter fun u => tprev - u < windowMs) =
        if maxRequests ≤ (A.filter fun u => t - u < windowMs).length
        then (false, A.filter fun u => t - u < windowMs)
        else (true, (A.filter fun u => t - u < windowMs) ++ [t]) := by
      unfold checkLimit
      rw [window_filter_absorb A tprev t htprev]
    by_cases hlen : (A.filter fun u => t - u < windowMs).length < maxRequests
    · have hc : checkLimit t (A.filter fun u => tprev - u < windowMs) =
          (true, (A.filter fun u => t - u < windowMs) ++ [t]) := by
        rw [hstate, if_neg (by omega)]
      have happ : (A.filter fun u => t - u < windowMs) ++ [t] =
          (A ++ [t]).filter fun u => t - u < windowMs := by
        rw [List.filter_append]
        congr 1
        simp [windowMs]
      have hA' : ∀ u ∈ A ++ [t], u ≤ t := by
        intro u hu
        rcases List.mem_append.mp hu with hu | hu
        · exact le_trans (hA u hu) htprev
        · simp only [List.mem_singleton] at hu
          omega
      have hrun : (runChecks (t :: ts) (A.filter fun u => tprev - u < windowMs)).1 =
          (checkLimit t (A.filter fun u => tprev - u < windowMs)).1 ::
            (runChecks ts (checkLimit t (A.filter fun u => tprev - u < windowMs)).2).1 := rfl
      have hrun2 : (runChecks (t :: ts) (A.filter fun u => tprev - u < windowMs)).1 =
          true :: (runChecks ts ((A ++ [t]).filter fun u => t - u < windowMs)).1 := by
        rw [hrun, hc, happ]
      rw [hrun2, ih t (A ++ [t]) hts' hfirst' hA']
      simp only [specAdmitModel]
      rw [if_pos hlen]
    · have hc : checkLimit t (A.filter fun u => tprev - u < windowMs) =
          (false, A.filter fun u => t - u < windowMs) := by
        rw [hstate, if_pos (by omega)]
      have hA' : ∀ u ∈ A, u ≤ t := fun u hu => le_trans (hA u hu) htprev
      have hrun : (runChecks (t :: ts) (A.filter fun u => tprev - u < windowMs)).1 =
          (checkLimit t (A.filter fun u => tprev - u < windowMs)).1 ::
            (runChecks ts (checkLimit t (A.filter fun u => tprev - u < windowMs)).2).1 := rfl
      have hrun2 : (runChecks (t :: ts) (A.filter fun u => tprev - u < windowMs)).1 =
          false :: (runChecks ts (A.filter fun u => t - u < windowMs)).1 := by
        rw [hrun, hc]
      rw [hrun2, ih t A hts' hfirst' hA']
      simp only [specAdmitModel]
      rw [if_neg (by omega)]

/-- The admitted timestamps of the specification model, read off its
decision trace, are exactly what `specAdmitAll` accumulates. -/
lemma specAdmitModel_admittedZip (ts : List Nat) : ∀ adm : List Nat,
    adm ++ admittedZip ts (specAdmitModel ts adm) = specAdmitAll ts adm := by
  induction ts with
  | nil => intro adm; simp [admittedZip, specAdmitAll, specAdmitModel]
  | cons t ts ih =>
    intro adm
    simp only [specAdmitModel, specAdmitAll]
    by_cases h : (adm.filter fun u => t - u < windowMs).length < maxRequests
    · rw [if_pos h, if_pos h]
      have hz : admittedZip (t :: ts) (true :: specAdmitModel ts (adm ++ [t])) =
          t :: admittedZip ts (specAdmitModel ts (adm ++ [t])) := rfl
      rw [hz, ← ih (adm ++ [t])]
      simp
    · rw [if_neg h, if_neg h]
      have hz : admittedZip (t :: ts) (false :: specAdmitModel ts adm) =
          admittedZip ts (specAdmitModel ts adm) := rfl
      rw [hz, ih adm]

/-- No rolling window of the configured duration ever contains more
than the cap of admitted timestamps. -/
lemma specAdmitAll_window_bound (ts : List Nat) : ∀ adm : List Nat,
    timesSorted ts = true →
    (∀ t0, ts.head? = some t0 → ∀ u ∈ adm, u ≤ t0) →
    (∀ w, (adm.filter (inWindow w)).length ≤ maxRequests) →
    ∀ w, ((specAdmitAll ts adm).filter (inWindow w)).length ≤ maxRequests := by
  induction ts with
  | nil => intro adm _ _ hbound w; exact hbound w
  | cons t ts ih =>
    intro adm hts hfirst hbound
    have hts' := timesSorted_tail t ts hts
    have hAt : ∀ u ∈ adm, u ≤ t := hfirst t rfl
    have hnext : ∀ t0, ts.head? = some t0 → t ≤ t0 := timesSorted_head_le t ts hts
    simp only [specAdmitAll]
    by_cases h : (adm.filter fun u => t - u < windowMs).length < maxRequests
    · rw [if_pos h]
      apply ih (adm ++ [t]) hts'
      · intro t0 h0 u hu
        rcases List.mem_append.mp hu with hu | hu
        · exact le_trans (hAt u hu) (hnext t0 h0)
        · simp only [List.mem_singleton] at hu
          subst hu
          exact hnext t0 h0
      · intro w
        rw [List.filter_append]
        by_cases hw : inWindow w t = true
        · have hwin : ∀ u ∈ adm, inWindow w u = true → (t - u < windowMs) := by
            intro u hu huw
            simp only [inWindow, Bool.and_eq_true, decide_eq_true_eq] at hw huw
            omega
          have hsub : adm.filter (inWindow w) =
              (adm.filter fun u => t - u < windowMs).filter (inWindow w) := by
            rw [List.filter_filter]
            apply List.filter_congr
            intro u hu
            by_cases huw : inWindow w u = true
            · simp [huw, hwin u hu huw]
            · simp only [Bool.not_eq_true] at huw
              simp [huw]
          have hle : (adm.filter (inWindow w)).length ≤
              (adm.filter fun u => t - u < windowMs).length := by
            rw [hsub]
            exact List.length_filter_le _ _
          have hsing : ([t].filter (inWindow w)).length ≤ 1 :=
            le_trans (List.length_filter_le _ _) (by simp)
          rw [List.length_append]
          omega
        · have hsing : [t].filter (inWindow w) = [] := by
            simp only [Bool.not_eq_true] at hw
            simp [List.filter, hw]
          rw [hsing, List.length_append]
          have := hbound w
          simp
          omega
    · rw [if_neg h]
      apply ih adm hts'
      · intro t0 h0 u hu
        exact le_trans (hAt u hu) (hnext t0 h0)
      · exact hbound

/-- C5: over any nondecreasing sequence of admission checks, the
limiter's decision trace equals the specification model "admit iff
fewer than 10 admitted timestamps lie within the rolling 60-second
window" — so exactly the cap of checks is admitted inside any rolling
window (never more than 10 admitted in any window), and an over-cap
check is rejected and stays rejected until the earliest admitted
timestamp ages out, as the concrete trace (ten admissions at time 5,
rejections through time 60004, re-admission at 60005) exhibits. -/
theorem c5_sliding_window_limiter (ts : List Nat) (h : timesSorted ts = true) :
    (runChecks ts []).1 = specAdmitModel ts [] ∧
    (∀ w, ((admittedZip ts (runChecks ts []).1).filter (inWindow w)).length ≤ maxRequests) ∧
    (runChecks (List.replicate 12 5 ++ [60004, 60005]) []).1 =
      List.replicate 10 true ++ [false, false, false, true] := by
  have h1 : (runChecks ts []).1 = specAdmitModel ts [] := by
    have h2 := runChecks_eq_specAdmitModel ts 0 []
      h (fun t0 _ => Nat.zero_le t0) (by intro u hu; cases hu)
    simpa using h2
  refine ⟨h1, ?_, by decide⟩
  intro w
  rw [h1]
  have h2 := specAdmitModel_admittedZip ts []
  rw [List.nil_append] at h2
  rw [h2]
  exact specAdmitAll_window_bound ts [] h
    (fun t0 _ u hu => absurd hu (List.not_mem_nil u))
    (fun w => by simp [maxRequests]) w

/-- C5 witness: the characterization applied to a concrete
nondecreasing check sequence. -/
theorem c5_witness :
    timesSorted [0, 30000, 59999, 60000] = true ∧
    (runChecks [0, 30000, 59999, 60000] []).1 =
      specAdmitModel [0, 30000, 59999, 60000] [] :=
  ⟨by decide, (c5_sliding_window_limiter [0, 30000, 59999, 60000] (by decide)).1⟩
